import Mathlib

/-!
Verification of the static diagnostic scanner `analyze_python_script`
(notebook `Code_Review_and_Debugging.ipynb`, cell 1).  The scanner parses a
Python script with `ast.parse` and then

  * for every node visited by `ast.walk(tree)` that is an `ast.For` and whose
    `ast.walk(node)` traversal contains an `ast.For`, appends
    `f"Inefficient nested loop found at line {node.lineno}"`;
  * forms `imported_modules = {node.names[0].name for node in tree.body
    if isinstance(node, ast.Import)}` and
    `used_modules = {node.id for node in ast.walk(tree)
    if isinstance(node, ast.Name)}`, and appends
    `f"Unused import: {u}"` for every `u` in `imported_modules - used_modules`.

The relevant fragment of the Python AST is embedded as the inductive `Node`
below, `ast.walk`'s breadth-first queue traversal as `walkQ`, and the whole
analysis as `analyze`.  Python `set`s are modelled as duplicate-free lists in
first-insertion order (CPython's iteration order for `str` sets is
hash-dependent; the claims under study do not depend on the relative order of
the unused-import findings, only on the set of them, so any fixed order is a
faithful model).
-/

/-- One clause of a Python import statement (`ast.alias`): the declared module
name and the optional `as` alias. -/
structure Alias where
  name : String
  asname : Option String
deriving DecidableEq, Repr

/-- The fragment of the Python AST relevant to the analyzer.  Every statement
or expression node carries its 1-based `lineno`.  Fields follow the order of
`ast`'s `_fields` (which is the order `ast.iter_child_nodes` yields children
in); fields that can never contain `ast.For`, `ast.Import` or `ast.Name`
nodes and never occur in the analysed examples (`orelse` of loops, function
arguments — which are `ast.arg` objects, not `ast.Name` nodes — decorator
lists, keywords of calls) are omitted. -/
inductive Node where
  | Module (b : List Node)
  | FunctionDef (lineno : Nat) (name : String) (b : List Node)
  | For (lineno : Nat) (target : Node) (iter : Node) (b : List Node)
  | While (lineno : Nat) (test : Node) (b : List Node)
  | If (lineno : Nat) (test : Node) (b : List Node) (orelse : List Node)
  | Import (lineno : Nat) (names : List Alias)
  | ImportFrom (lineno : Nat) (module : String) (names : List Alias)
  | Assign (lineno : Nat) (targets : List Node) (value : Node)
  | Expr (lineno : Nat) (value : Node)
  | Call (lineno : Nat) (func : Node) (args : List Node)
  | Name (lineno : Nat) (id : String)
  | Constant (lineno : Nat)
deriving Repr

/-- `ast.iter_child_nodes`: the direct child nodes, in field order. -/
def children : Node → List Node
  | .Module b => b
  | .FunctionDef _ _ b => b
  | .For _ target it b => target :: it :: b
  | .While _ test b => test :: b
  | .If _ test b orelse => test :: (b ++ orelse)
  | .Import _ _ => []
  | .ImportFrom _ _ _ => []
  | .Assign _ targets value => targets ++ [value]
  | .Expr _ value => [value]
  | .Call _ func args => func :: args
  | .Name _ _ => []
  | .Constant _ => []

/-- `node.lineno`.  `ast.Module` has no `lineno` attribute in Python; the
analyzer only ever reads `lineno` of `ast.For` nodes, so the value chosen for
`Module` is irrelevant. -/
def lineno : Node → Nat
  | .Module _ => 0
  | .FunctionDef ln _ _ => ln
  | .For ln _ _ _ => ln
  | .While ln _ _ => ln
  | .If ln _ _ _ => ln
  | .Import ln _ => ln
  | .ImportFrom ln _ _ => ln
  | .Assign ln _ _ => ln
  | .Expr ln _ => ln
  | .Call ln _ _ => ln
  | .Name ln _ => ln
  | .Constant ln => ln

mutual

/-- Number of nodes in a subtree (termination measure for the traversals). -/
def nodeSize : Node → Nat
  | .Module b => 1 + sizeList b
  | .FunctionDef _ _ b => 1 + sizeList b
  | .For _ target it b => 1 + nodeSize target + nodeSize it + sizeList b
  | .While _ test b => 1 + nodeSize test + sizeList b
  | .If _ test b orelse => 1 + nodeSize test + sizeList b + sizeList orelse
  | .Import _ _ => 1
  | .ImportFrom _ _ _ => 1
  | .Assign _ targets value => 1 + sizeList targets + nodeSize value
  | .Expr _ value => 1 + nodeSize value
  | .Call _ func args => 1 + nodeSize func + sizeList args
  | .Name _ _ => 1
  | .Constant _ => 1

/-- Total number of nodes in a list of subtrees. -/
def sizeList : List Node → Nat
  | [] => 0
  | n :: l => nodeSize n + sizeList l

end

theorem sizeList_append (a b : List Node) :
    sizeList (a ++ b) = sizeList a + sizeList b := by
  induction a with
  | nil => simp [sizeList]
  | cons n l ih => simp [sizeList, ih]; omega

theorem nodeSize_pos (n : Node) : 1 ≤ nodeSize n := by
  cases n <;> simp [nodeSize] <;> omega

theorem sizeList_children_lt (n : Node) : sizeList (children n) < nodeSize n := by
  cases n <;> simp [children, nodeSize, sizeList, sizeList_append] <;> omega

/-- The loop body of `ast.walk`: a FIFO queue (`collections.deque`); each step
pops the front node, appends its children to the queue and yields the node.
This is a breadth-first traversal that includes the start node itself. -/
def walkQ : List Node → List Node
  | [] => []
  | n :: todo => n :: walkQ (todo ++ children n)
termination_by l => sizeList l
decreasing_by
  simp [sizeList, sizeList_append]
  have := sizeList_children_lt n
  omega

/-- `ast.walk(node)`: breadth-first traversal of the subtree rooted at `node`,
including `node` itself. -/
def walk (node : Node) : List Node := walkQ [node]

/-- `isinstance(node, ast.For)`. -/
def isFor : Node → Bool
  | .For _ _ _ _ => true
  | _ => false

/-- `node.id` of an `ast.Name` node, `none` for every other kind. -/
def nameId : Node → Option String
  | .Name _ id => some id
  | _ => none

/-- `node.names[0].name` of an `ast.Import` node, `none` for every other kind.
(The Python grammar guarantees `names` is nonempty for a parsed `import`.) -/
def importModuleName : Node → Option String
  | .Import _ names => names.head?.map Alias.name
  | _ => none

/-- `tree.body`: the list of top-level statements of a `Module`. -/
def body : Node → List Node
  | .Module b => b
  | _ => []

/-- Model of a Python `set` built from a comprehension: keep the first
occurrence of each element, in first-insertion order. -/
def dedupFirst : List String → List String
  | [] => []
  | x :: xs => x :: (dedupFirst xs).filter (fun y => y != x)

/-- The nested-loop message `f"Inefficient nested loop found at line {n}"`. -/
def nestedMsg (n : Nat) : String :=
  "Inefficient nested loop found at line " ++ toString n

/-- The unused-import message `f"Unused import: {x}"`. -/
def unusedMsg (x : String) : String :=
  "Unused import: " ++ x

/-- The first phase of the analyzer (notebook lines 40-43): for every node of
`ast.walk(tree)` that is an `ast.For` and whose own `ast.walk` traversal
contains an `ast.For` (note: `ast.walk(node)` includes `node` itself), append
the nested-loop message for its line. -/
def nestedFindings (tree : Node) : List String :=
  (walk tree).filterMap fun node =>
    if isFor node && (walk node).any isFor then some (nestedMsg (lineno node))
    else none

/-- `imported_modules` (notebook line 46): the first declared module name of
every top-level plain `ast.Import` statement, as a set. -/
def importedModules (tree : Node) : List String :=
  dedupFirst ((body tree).filterMap importModuleName)

/-- `used_modules` (notebook line 47): the `id` of every `ast.Name` node
anywhere in the tree, as a set. -/
def usedNames (tree : Node) : List String :=
  dedupFirst ((walk tree).filterMap nameId)

/-- `unused_imports = imported_modules - used_modules` (notebook line 48). -/
def unusedImports (tree : Node) : List String :=
  (importedModules tree).filter fun m => decide (m ∉ usedNames tree)

/-- The second phase of the analyzer (notebook lines 50-51): one unused-import
message per element of `unused_imports`. -/
def unusedFindings (tree : Node) : List String :=
  (unusedImports tree).map unusedMsg

/-- `analyze_python_script` after parsing (notebook lines 38-53): the `issues`
list receives all nested-loop messages first, then all unused-import
messages. -/
def analyze (tree : Node) : List String :=
  nestedFindings tree ++ unusedFindings tree

/-- The parse-then-analyze control flow of `analyze_python_script` (notebook
line 36 followed by the analysis).  The Tree Builder (`ast.parse`) is an
external collaborator (spec section 4.1) and is passed in as a function; its
`SyntaxError` outcome is the `Except.error` case, and when it fails the
analysis is never reached. -/
def analyzeScript (parse : String → Except String Node) (text : String) :
    Except String (List String) :=
  match parse text with
  | .error e => .error e
  | .ok tree => .ok (analyze tree)

mutual

/-- Modelled from the spec's words, for comparison with the source's `walk`:
a depth-first pre-order traversal of the tree ("discovery order of a pre-order
traversal of the tree"). -/
def preorder (n : Node) : List Node := n :: preorderF (children n)
termination_by 2 * nodeSize n
decreasing_by
  have := sizeList_children_lt n
  omega

/-- Pre-order traversal of a forest, left to right. -/
def preorderF : List Node → List Node
  | [] => []
  | n :: l => preorder n ++ preorderF l
termination_by l => 2 * sizeList l + 1
decreasing_by
  · have := nodeSize_pos n
    simp [sizeList]
    omega
  · have := nodeSize_pos n
    simp [sizeList]
    omega

end

/-- Modelled from the spec's words, for comparison with the source: the
nested-loop findings listed in the discovery order of a pre-order traversal,
flagging exactly the nodes the source flags. -/
def preorderNestedMsgs (tree : Node) : List String :=
  (preorder tree).filterMap fun node =>
    if isFor node && (walk node).any isFor then some (nestedMsg (lineno node))
    else none

/-- Modelled from the claim's words "a name introduced by a top-level import
statement": every name bound by a clause of a top-level `import` or
`from ... import` statement (the alias when present, the declared name
otherwise). -/
def introducedNames (tree : Node) : List String :=
  (body tree).flatMap fun s =>
    match s with
    | .Import _ names => names.map (fun a => a.asname.getD a.name)
    | .ImportFrom _ _ names => names.map (fun a => a.asname.getD a.name)
    | _ => []

/-- A flat `for` loop at line 1 with no loop anywhere in its body. -/
def flatFor : Node :=
  .For 1 (.Name 1 "i") (.Name 1 "xs") [.Expr 2 (.Constant 2)]

/-- A module whose single statement is the flat loop `flatFor`. -/
def flatLoopTree : Node := .Module [flatFor]

/-- A module with a triple-nested `for` loop: A (line 1) contains B (line 2)
contains C (line 3). -/
def tripleLoopTree : Node :=
  .Module [.For 1 (.Name 1 "a") (.Name 1 "r")
    [.For 2 (.Name 2 "b") (.Name 2 "r")
      [.For 3 (.Name 3 "c") (.Name 3 "r")
        [.Expr 4 (.Constant 4)]]]]

/-- A module with a `for` loop (line 1) whose body holds only a `while` loop
(line 2). -/
def forWhileTree : Node :=
  .Module [.For 1 (.Name 1 "i") (.Name 1 "xs")
    [.While 2 (.Name 2 "c") [.Expr 3 (.Constant 3)]]]

/-- A module with two sibling top-level loop nests: A (line 1) containing
B (line 2) containing C (line 3), then D (line 4) containing E (line 5).
Breadth-first discovery order of the loops is A, D, B, E, C while pre-order
discovery is A, B, C, D, E. -/
def twoNestTree : Node :=
  .Module
    [.For 1 (.Name 1 "a") (.Name 1 "r")
      [.For 2 (.Name 2 "b") (.Name 2 "r")
        [.For 3 (.Name 3 "c") (.Name 3 "r")
          [.Expr 3 (.Constant 3)]]],
     .For 4 (.Name 4 "d") (.Name 4 "r")
      [.For 5 (.Name 5 "e") (.Name 5 "r")
        [.Expr 5 (.Constant 5)]]]

/-- A module with `import a, b` as its only statement and no identifier
references at all. -/
def twoClauseTree : Node :=
  .Module [.Import 1 [⟨"a", none⟩, ⟨"b", none⟩]]

/-- A module importing `x` at top level whose only reference to `x` sits
inside a function nested within another function. -/
def nestedUseTree : Node :=
  .Module [.Import 1 [⟨"x", none⟩],
    .FunctionDef 2 "f" [.FunctionDef 3 "g" [.Expr 4 (.Name 4 "x")]]]

/-- A module with `import numpy as np` as its only statement and no
identifier references at all. -/
def aliasImportTree : Node :=
  .Module [.Import 1 [⟨"numpy", some "np"⟩]]

/-- A module with an unused `import m` followed by a doubly nested `for`
loop, so the analysis produces findings of both categories. -/
def mixedTree : Node :=
  .Module [.Import 1 [⟨"m", none⟩],
    .For 2 (.Name 2 "i") (.Name 2 "xs")
      [.For 3 (.Name 3 "j") (.Name 3 "xs") [.Expr 3 (.Constant 3)]]]

theorem head_data_nestedMsg (n : Nat) : (nestedMsg n).data.head? = some 'I' := by
  rw [nestedMsg, String.data_append]; rfl

theorem head_data_unusedMsg (x : String) : (unusedMsg x).data.head? = some 'U' := by
  rw [unusedMsg, String.data_append]; rfl

theorem nestedMsg_ne_unusedMsg (n : Nat) (x : String) : nestedMsg n ≠ unusedMsg x := by
  intro h
  have h' : (nestedMsg n).data.head? = (unusedMsg x).data.head? := by rw [h]
  rw [head_data_nestedMsg, head_data_unusedMsg] at h'
  simp at h'

theorem unusedMsg_injective : Function.Injective unusedMsg := by
  intro x y h
  have h' : (unusedMsg x).data = (unusedMsg y).data := by rw [h]
  rw [unusedMsg, unusedMsg, String.data_append, String.data_append] at h'
  have h2 := List.append_cancel_left h'
  cases x; cases y; simp only at h2; rw [h2]

theorem mem_dedupFirst (x : String) (l : List String) :
    x ∈ dedupFirst l ↔ x ∈ l := by
  induction l with
  | nil => simp [dedupFirst]
  | cons a l ih =>
    simp only [dedupFirst, List.mem_cons, List.mem_filter, ih]
    by_cases hxa : x = a
    · simp [hxa]
    · simp [hxa]

theorem nodup_dedupFirst (l : List String) : (dedupFirst l).Nodup := by
  induction l with
  | nil => simp [dedupFirst]
  | cons a l ih =>
    rw [dedupFirst, List.nodup_cons]
    refine ⟨?_, ih.filter _⟩
    intro hmem
    have := (List.mem_filter.mp hmem).2
    simp at this

theorem nodup_unusedImports (t : Node) : (unusedImports t).Nodup :=
  (nodup_dedupFirst _).filter _

/-- Characterisation of membership in the `unused_imports` set difference. -/
theorem mem_unusedImports (t : Node) (x : String) :
    x ∈ unusedImports t ↔ x ∈ importedModules t ∧ x ∉ usedNames t := by
  simp [unusedImports, List.mem_filter]

theorem mem_nestedFindings (t : Node) (m : String) (h : m ∈ nestedFindings t) :
    ∃ n, m = nestedMsg n := by
  rw [nestedFindings] at h
  obtain ⟨node, -, hf⟩ := List.mem_filterMap.mp h
  by_cases hc : (isFor node && (walk node).any isFor) = true
  · rw [if_pos hc] at hf
    exact ⟨lineno node, (Option.some.inj hf).symm⟩
  · rw [if_neg hc] at hf
    exact absurd hf (by simp)

theorem mem_unusedFindings (t : Node) (m : String) :
    m ∈ unusedFindings t ↔ ∃ x ∈ unusedImports t, m = unusedMsg x := by
  simp [unusedFindings, eq_comm]

/-- An unused-import message is in the result exactly when its name is in the
`unused_imports` set: it can never collide with a nested-loop message. -/
theorem unusedMsg_mem_analyze (t : Node) (x : String) :
    unusedMsg x ∈ analyze t ↔ x ∈ unusedImports t := by
  rw [analyze, List.mem_append]
  constructor
  · rintro (h | h)
    · obtain ⟨n, hn⟩ := mem_nestedFindings t _ h
      exact absurd hn.symm (nestedMsg_ne_unusedMsg n x)
    · obtain ⟨y, hy, hxy⟩ := (mem_unusedFindings t _).mp h
      rwa [unusedMsg_injective hxy]
  · intro h
    exact Or.inr ((mem_unusedFindings t _).mpr ⟨x, h, rfl⟩)

theorem count_unusedMsg_analyze (t : Node) (x : String) :
    (analyze t).count (unusedMsg x) = (unusedImports t).count x := by
  rw [analyze, List.count_append]
  have h0 : (nestedFindings t).count (unusedMsg x) = 0 := by
    rw [List.count_eq_zero]
    intro hmem
    obtain ⟨n, hn⟩ := mem_nestedFindings t _ hmem
    exact nestedMsg_ne_unusedMsg n x hn.symm
  rw [h0, unusedFindings, List.count_map_of_injective _ _ unusedMsg_injective]
  omega

/-- C1: the claim states that a nested-loop finding is emitted at a loop's
line iff the loop's subtree excluding the loop itself contains another loop,
and in particular that a single flat loop yields no finding.  The code
disagrees: `ast.walk(node)` yields `node` itself first, so the inner check
`any(isinstance(child, ast.For) for child in ast.walk(node))` is satisfied by
the outer loop itself.  This theorem evaluates the analyzer at the failing
input: the traversal of `flatFor`'s children contains no loop, yet the
analysis of the module holding only `flatFor` reports a nested loop at
line 1. -/
theorem c1_flat_loop_flagged :
    (walkQ (children flatFor)).any isFor = false
    ∧ analyze flatLoopTree = [nestedMsg 1] := by
  constructor
  · simp [flatFor, walkQ, children, isFor]
  · simp [analyze, flatLoopTree, flatFor, nestedFindings, unusedFindings,
      unusedImports, importedModules, usedNames, walk, walkQ, children, body,
      importModuleName, nameId, dedupFirst, isFor, lineno]

/-- C2: the claim predicts exactly two nested-loop findings (at A's and B's
lines) for the triple nest A ⊃ B ⊃ C.  Because `ast.walk(node)` includes
`node` itself, the code flags every `for` loop, so the innermost loop C is
flagged as well: the analysis of `tripleLoopTree` yields three findings, at
lines 1, 2 and 3. -/
theorem c2_triple_nest_three_findings :
    analyze tripleLoopTree = [nestedMsg 1, nestedMsg 2, nestedMsg 3] := by
  simp [analyze, tripleLoopTree, nestedFindings, unusedFindings, unusedImports,
    importedModules, usedNames, walk, walkQ, children, body, importModuleName,
    nameId, dedupFirst, isFor, lineno]

/-- C10: the claim's first half holds (a `while` loop never receives a
nested-loop finding: only `ast.For` nodes are flagged and only `ast.For`
descendants count), but its second half fails: a `for` loop whose body holds
only a `while` loop is still flagged, because `ast.walk(node)` includes the
`for` node itself.  At `forWhileTree` the code emits exactly one finding, at
the `for` loop's line 1 (and none at the `while` loop's line 2). -/
theorem c10_for_with_while_flagged :
    analyze forWhileTree = [nestedMsg 1] := by
  simp [analyze, forWhileTree, nestedFindings, unusedFindings, unusedImports,
    importedModules, usedNames, walk, walkQ, children, body, importModuleName,
    nameId, dedupFirst, isFor, lineno]

/-- C3 (counterexample): the claim promises a finding for every name
introduced by a top-level import statement that is never referenced, but the
code only considers `names[0].name` of each plain `import`.  In the module
`import a, b` with no references, `b` is introduced and unreferenced, yet no
`Unused import: b` finding is emitted. -/
theorem c3_second_clause_unreported :
    "b" ∈ introducedNames twoClauseTree
    ∧ "b" ∉ usedNames twoClauseTree
    ∧ unusedMsg "b" ∉ analyze twoClauseTree := by
  refine ⟨?_, ?_, ?_⟩
  · simp [introducedNames, twoClauseTree, body]
  · simp [usedNames, twoClauseTree, walk, walkQ, children, nameId, dedupFirst]
  · have hv : analyze twoClauseTree = [unusedMsg "a"] := by
      simp [analyze, twoClauseTree, nestedFindings, unusedFindings,
        unusedImports, importedModules, usedNames, walk, walkQ, children, body,
        importModuleName, nameId, dedupFirst, isFor]
    rw [hv]
    decide

/-- C3 (amended): `analyze` emits `Unused import: N` iff `N` is the declared
module name of the first clause of some top-level plain import statement and
no identifier-reference node anywhere in the tree has name `N`; and for each
such `N` exactly one unused-import finding is emitted. -/
theorem c3_unused_import_iff (t : Node) (N : String) :
    (unusedMsg N ∈ analyze t ↔ N ∈ importedModules t ∧ N ∉ usedNames t)
    ∧ (N ∈ importedModules t → N ∉ usedNames t →
        (analyze t).count (unusedMsg N) = 1) := by
  constructor
  · rw [unusedMsg_mem_analyze, mem_unusedImports]
  · intro h1 h2
    rw [count_unusedMsg_analyze]
    exact List.count_eq_one_of_mem (nodup_unusedImports t)
      ((mem_unusedImports t N).mpr ⟨h1, h2⟩)

/-- Witness for `c3_unused_import_iff` at the module `import a, b`: the name
`a` is imported and unreferenced, and exactly one finding is counted. -/
theorem c3_unused_import_iff_witness :
    (analyze twoClauseTree).count (unusedMsg "a") = 1 :=
  (c3_unused_import_iff twoClauseTree "a").2
    (by simp [importedModules, twoClauseTree, body, importModuleName, dedupFirst])
    (by simp [usedNames, twoClauseTree, walk, walkQ, children, nameId, dedupFirst])

/-- C4: if a name is imported and referenced anywhere in the tree — at any
nesting depth, the detector being scope-insensitive — then no unused-import
finding is emitted for it. -/
theorem c4_used_name_not_reported (t : Node) (X : String)
    (him : X ∈ importedModules t) (href : X ∈ usedNames t) :
    unusedMsg X ∉ analyze t := by
  intro h
  exact ((mem_unusedImports t X).mp ((unusedMsg_mem_analyze t X).mp h)).2 href

/-- Witness for `c4_used_name_not_reported`: in `nestedUseTree` the import
`x` is referenced only inside a doubly nested function, and still no
unused-import finding for `x` is emitted. -/
theorem c4_used_name_not_reported_witness :
    unusedMsg "x" ∉ analyze nestedUseTree :=
  c4_used_name_not_reported nestedUseTree "x"
    (by simp [importedModules, nestedUseTree, body, importModuleName, dedupFirst])
    (by simp [usedNames, nestedUseTree, walk, walkQ, children, nameId, dedupFirst])

/-- C5: unused-import detection is keyed on the imported module's declared
name, not the alias.  If some top-level statement is `import numpy as np` and
neither `numpy` nor `np` is referenced (and no import declares `np` as a
module name), the emitted finding is `Unused import: numpy` and no finding
mentions `np`. -/
theorem c5_keyed_on_module_name (t : Node) (ln : Nat) (rest : List Alias)
    (him : Node.Import ln (⟨"numpy", some "np"⟩ :: rest) ∈ body t)
    (h1 : "numpy" ∉ usedNames t) (h2 : "np" ∉ usedNames t)
    (h3 : "np" ∉ importedModules t) :
    unusedMsg "numpy" ∈ analyze t ∧ unusedMsg "np" ∉ analyze t := by
  constructor
  · have hmem : "numpy" ∈ importedModules t := by
      rw [importedModules, mem_dedupFirst]
      exact List.mem_filterMap.mpr ⟨_, him, by simp [importModuleName]⟩
    exact (unusedMsg_mem_analyze t _).mpr ((mem_unusedImports t _).mpr ⟨hmem, h1⟩)
  · intro h
    exact h3 ((mem_unusedImports t _).mp ((unusedMsg_mem_analyze t _).mp h)).1

/-- Witness for `c5_keyed_on_module_name` at the module whose single
statement is `import numpy as np`. -/
theorem c5_keyed_on_module_name_witness :
    unusedMsg "numpy" ∈ analyze aliasImportTree
    ∧ unusedMsg "np" ∉ analyze aliasImportTree :=
  c5_keyed_on_module_name aliasImportTree 1 []
    (by simp [aliasImportTree, body])
    (by simp [usedNames, aliasImportTree, walk, walkQ, children, nameId, dedupFirst])
    (by simp [usedNames, aliasImportTree, walk, walkQ, children, nameId, dedupFirst])
    (by simp [importedModules, aliasImportTree, body, importModuleName, dedupFirst])

/-- C6 (counterexample): the claim says the nested-loop findings appear in
pre-order discovery order, but `ast.walk` is a breadth-first traversal.  On
`twoNestTree` (loop A line 1 ⊃ B line 2 ⊃ C line 3, then sibling D line 4 ⊃
E line 5) the code reports lines 1, 4, 2, 5, 3 while pre-order discovery
would report lines 1, 2, 3, 4, 5. -/
theorem c6_walk_is_not_preorder :
    analyze twoNestTree =
      [nestedMsg 1, nestedMsg 4, nestedMsg 2, nestedMsg 5, nestedMsg 3]
    ∧ preorderNestedMsgs twoNestTree =
      [nestedMsg 1, nestedMsg 2, nestedMsg 3, nestedMsg 4, nestedMsg 5]
    ∧ analyze twoNestTree ≠
        preorderNestedMsgs twoNestTree ++ unusedFindings twoNestTree := by
  have h1 : analyze twoNestTree =
      [nestedMsg 1, nestedMsg 4, nestedMsg 2, nestedMsg 5, nestedMsg 3] := by
    simp [analyze, twoNestTree, nestedFindings, unusedFindings, unusedImports,
      importedModules, usedNames, walk, walkQ, children, body, importModuleName,
      nameId, dedupFirst, isFor, lineno]
  have h2 : preorderNestedMsgs twoNestTree =
      [nestedMsg 1, nestedMsg 2, nestedMsg 3, nestedMsg 4, nestedMsg 5] := by
    simp [preorderNestedMsgs, twoNestTree, preorder, preorderF, walk, walkQ,
      children, isFor, lineno]
  have h3 : unusedFindings twoNestTree = [] := by
    simp [unusedFindings, unusedImports, importedModules, twoNestTree, body,
      importModuleName, dedupFirst]
  refine ⟨h1, h2, ?_⟩
  rw [h1, h2, h3]
  decide

/-- C6 (amended): the findings sequence is the nested-loop findings — in the
breadth-first discovery order of `ast.walk`, not pre-order — followed by the
unused-import findings: every element of the first block is a nested-loop
message, every element of the second an unused-import message, and at no pair
of positions `i ≤ j` does a nested-loop message at `j` follow an
unused-import message at `i`. -/
theorem c6_category_order (t : Node) :
    analyze t = nestedFindings t ++ unusedFindings t
    ∧ (∀ m ∈ nestedFindings t, ∃ n, m = nestedMsg n)
    ∧ (∀ m ∈ unusedFindings t, ∃ x, m = unusedMsg x)
    ∧ ∀ (i j : Nat), i ≤ j → (∃ x, (analyze t)[i]? = some (unusedMsg x)) →
        ∀ n, (analyze t)[j]? ≠ some (nestedMsg n) := by
  refine ⟨rfl, fun m hm => mem_nestedFindings t m hm, ?_, ?_⟩
  · intro m hm
    obtain ⟨x, -, hmx⟩ := (mem_unusedFindings t m).mp hm
    exact ⟨x, hmx⟩
  · rintro i j hij ⟨x, hx⟩ n hn
    rw [analyze, List.getElem?_append] at hx hn
    by_cases hiA : i < (nestedFindings t).length
    · rw [if_pos hiA] at hx
      have hmem : unusedMsg x ∈ nestedFindings t := List.getElem?_mem hx
      obtain ⟨k, hk⟩ := mem_nestedFindings t _ hmem
      exact nestedMsg_ne_unusedMsg k x hk.symm
    · have hjA : ¬ j < (nestedFindings t).length := by omega
      rw [if_neg hjA] at hn
      have hmem : nestedMsg n ∈ unusedFindings t := List.getElem?_mem hn
      obtain ⟨y, -, hy⟩ := (mem_unusedFindings t _).mp hmem
      exact nestedMsg_ne_unusedMsg n y hy

/-- Witness for `c6_category_order` on `mixedTree`, whose findings are
`[nestedMsg 2, nestedMsg 3, unusedMsg "m"]`: position 2 holds an
unused-import message, so no position from 2 on holds a nested-loop
message. -/
theorem c6_category_order_witness :
    ∀ n, (analyze mixedTree)[2]? ≠ some (nestedMsg n) :=
  (c6_category_order mixedTree).2.2.2 2 2 le_rfl
    ⟨"m", by
      have hv : analyze mixedTree = [nestedMsg 2, nestedMsg 3, unusedMsg "m"] := by
        simp [analyze, mixedTree, nestedFindings, unusedFindings, unusedImports,
          importedModules, usedNames, walk, walkQ, children, body,
          importModuleName, nameId, dedupFirst, isFor, lineno]
      rw [hv]
      rfl⟩

/-- C7: when the parse step fails, the failure propagates unchanged and the
Diagnostic Walker is never reached: `analyzeScript` returns exactly the parse
error and no findings value. -/
theorem c7_parse_failure_aborts (parse : String → Except String Node)
    (text e : String) (h : parse text = Except.error e) :
    analyzeScript parse text = Except.error e := by
  simp [analyzeScript, h]

/-- Witness for `c7_parse_failure_aborts`: a parser that rejects its input
makes `analyzeScript` surface the `SyntaxError` unchanged. -/
theorem c7_parse_failure_aborts_witness :
    analyzeScript (fun _ => Except.error "SyntaxError") "for x in(" =
      Except.error "SyntaxError" :=
  c7_parse_failure_aborts (fun _ => Except.error "SyntaxError") "for x in("
    "SyntaxError" rfl

/-- C8: the analysis is deterministic — two runs of `analyzeScript` on the
same parser and the same text yield the same outcome, be it the same error or
the same findings sequence. -/
theorem c8_deterministic (parse : String → Except String Node) (text : String)
    (r₁ r₂ : Except String (List String))
    (h₁ : analyzeScript parse text = r₁) (h₂ : analyzeScript parse text = r₂) :
    r₁ = r₂ := h₁ ▸ h₂

/-- Witness for `c8_deterministic`: two evaluations on the module
`import a, b` both produce the single finding `Unused import: a`. -/
theorem c8_deterministic_witness :
    (Except.ok [unusedMsg "a"] : Except String (List String)) =
      Except.ok [unusedMsg "a"] :=
  c8_deterministic (fun _ => Except.ok twoClauseTree) "src"
    (Except.ok [unusedMsg "a"]) (Except.ok [unusedMsg "a"])
    (by simp [analyzeScript, analyze, twoClauseTree, nestedFindings,
      unusedFindings, unusedImports, importedModules, usedNames, walk, walkQ,
      children, body, importModuleName, nameId, dedupFirst, isFor])
    (by simp [analyzeScript, analyze, twoClauseTree, nestedFindings,
      unusedFindings, unusedImports, importedModules, usedNames, walk, walkQ,
      children, body, importModuleName, nameId, dedupFirst, isFor])

/-- C9: every unused-import finding names the first declared module name of
some top-level plain `import` statement; hence a name bound only by a
`from ... import` or by the second or later clause of a comma-separated
plain import is never reported, referenced or not. -/
theorem c9_unused_from_plain_first_clause (t : Node) (N : String)
    (h : unusedMsg N ∈ analyze t) :
    ∃ ln a rest, Node.Import ln (a :: rest) ∈ body t ∧ a.name = N := by
  have h1 : N ∈ importedModules t :=
    ((mem_unusedImports t N).mp ((unusedMsg_mem_analyze t N).mp h)).1
  rw [importedModules, mem_dedupFirst] at h1
  obtain ⟨s, hs, hf⟩ := List.mem_filterMap.mp h1
  cases s with
  | Import ln names =>
    cases names with
    | nil => simp [importModuleName] at hf
    | cons a rest =>
      refine ⟨ln, a, rest, hs, ?_⟩
      simpa [importModuleName] using hf
  | Module b => simp [importModuleName] at hf
  | FunctionDef ln nm b => simp [importModuleName] at hf
  | For ln tg it b => simp [importModuleName] at hf
  | While ln ts b => simp [importModuleName] at hf
  | If ln ts b o => simp [importModuleName] at hf
  | ImportFrom ln md names => simp [importModuleName] at hf
  | Assign ln ts v => simp [importModuleName] at hf
  | Expr ln v => simp [importModuleName] at hf
  | Call ln f a => simp [importModuleName] at hf
  | Name ln id => simp [importModuleName] at hf
  | Constant ln => simp [importModuleName] at hf

/-- Witness for `c9_unused_from_plain_first_clause` on the module
`import a, b`: the reported name `a` is traced back to the first clause of
the top-level plain import. -/
theorem c9_unused_from_plain_first_clause_witness :
    ∃ ln a rest, Node.Import ln (a :: rest) ∈ body twoClauseTree
      ∧ a.name = "a" :=
  c9_unused_from_plain_first_clause twoClauseTree "a"
    (by
      have hv : analyze twoClauseTree = [unusedMsg "a"] := by
        simp [analyze, twoClauseTree, nestedFindings, unusedFindings,
          unusedImports, importedModules, usedNames, walk, walkQ, children,
          body, importModuleName, nameId, dedupFirst, isFor]
      rw [hv]
      exact List.mem_singleton.mpr rfl)
